import Mathlib

/-!
Shallow embedding of the SSAD Assignment 2 fantasy-inventory program
(`src/main.cpp`): characters with integer health, name-keyed item
containers with a capacity bound, and the item-use protocol.

Machine `int` fields are modelled as `Int`; the program's
`throw std::runtime_error("Error caught")` sites are modelled as the
error kind the specification assigns to each failure condition (§7).
Operations that in C++ throw and leave the object untouched are
modelled as returning a result together with the (possibly unchanged)
post-state.
-/

namespace SSAD

/-- Error kinds of the specification (§7). Every throw site of the
source raises `std::runtime_error("Error caught")`; each site is mapped
to the kind the spec names for its condition. -/
inductive Err where
  | NotFound
  | CapacityExceeded
  | PreconditionNotMet
  | ItemSpent
  | UnknownCharacter
deriving DecidableEq, Repr

/-- `class Character` (main.cpp:25-54): mutable integer health and a name. -/
structure Character where
  healthPoints : Int
  name : String
deriving DecidableEq, Repr

/-- `Character::getHP` (main.cpp:47). -/
def Character.getHP (c : Character) : Int := c.healthPoints

/-- `Character::getName` (main.cpp:48). -/
def Character.getName (c : Character) : String := c.name

/-- `Character::takeDamage` (main.cpp:49): `healthPoints -= damage`. -/
def Character.takeDamage (c : Character) (damage : Int) : Character :=
  { c with healthPoints := c.healthPoints - damage }

/-- `Character::heal` (main.cpp:50): `healthPoints += healVolume`. -/
def Character.heal (c : Character) (healVolume : Int) : Character :=
  { c with healthPoints := c.healthPoints + healVolume }

/-- Interface of the `PhysicalDerived` concept as `Container` uses it:
every element type provides `getName` (main.cpp:21-22, 162-183). -/
class Named (T : Type) where
  getName : T → String

/-- Lookup in a name-keyed entry list: the `std::map` operations
`find`/`contains` (first entry with the key; keys are unique in a map). -/
def mapLookup {T : Type} (l : List (String × T)) (k : String) : Option T :=
  match l with
  | [] => none
  | (k', v) :: rest => if k = k' then some v else mapLookup rest k

/-- `std::map` `operator[]` assignment (main.cpp:164): overwrite the
entry with the key if present, otherwise insert a new entry. -/
def mapInsert {T : Type} (l : List (String × T)) (k : String) (v : T) :
    List (String × T) :=
  match l with
  | [] => [(k, v)]
  | (k', v') :: rest =>
      if k = k' then (k, v) :: rest else (k', v') :: mapInsert rest k v

/-- `std::map::erase(key)` (main.cpp:169,174): drop the entries with the
key (a map holds at most one). -/
def mapErase {T : Type} (l : List (String × T)) (k : String) :
    List (String × T) :=
  l.filter (fun p => decide (¬ (p.1 = k)))

/-- `template <PhysicalDerived T> class Container` (main.cpp:150-183):
a name-keyed mapping of items. -/
structure Container (T : Type) where
  elements : List (String × T)
deriving DecidableEq, Repr

/-- `Container<T>::add` (main.cpp:162-165): `elements[item.getName()] = item`. -/
def Container.add {T : Type} [Named T] (c : Container T) (item : T) :
    Container T :=
  { elements := mapInsert c.elements (Named.getName item) item }

/-- `Container<T>::find(std::string)` (main.cpp:179-183): the stored item,
or the NULL sentinel — modelled as `none` — when the name is absent. -/
def Container.findByName {T : Type} (c : Container T) (name : String) :
    Option T :=
  mapLookup c.elements name

/-- `Container<T>::find(T)` (main.cpp:176-178): `elements.contains(item.getName())`. -/
def Container.findItem {T : Type} [Named T] (c : Container T) (item : T) :
    Bool :=
  (c.findByName (Named.getName item)).isSome

/-- `Container<T>::remove(T)` (main.cpp:166-170): throw when empty or the
item's name is absent, else erase the entry. The pair carries the
post-state; a throw leaves the container untouched. -/
def Container.removeItem {T : Type} [Named T] (c : Container T) (item : T) :
    Except Err Unit × Container T :=
  if c.elements.length = 0 ∨ c.findItem item = false then
    (Except.error Err.NotFound, c)
  else
    (Except.ok (), { elements := mapErase c.elements (Named.getName item) })

/-- `Container<T>::remove(std::string)` (main.cpp:171-175): throw when
empty or `find(name)` yields the miss sentinel, else erase the entry. -/
def Container.removeByName {T : Type} (c : Container T) (name : String) :
    Except Err Unit × Container T :=
  if c.elements.length = 0 ∨ (c.findByName name).isNone then
    (Except.error Err.NotFound, c)
  else
    (Except.ok (), { elements := mapErase c.elements name })

/-- `template <PhysicalDerived T> class ContainerWithMaxCapacity`
(main.cpp:186-213): a container plus an `int` capacity bound. -/
structure ContainerWithMaxCapacity (T : Type) extends Container T where
  maxCapacity : Int
deriving DecidableEq, Repr

/-- `ContainerWithMaxCapacity<T>::add` (main.cpp:209-213): throw when
`elements.size() == maxCapacity`, else delegate to the base add. -/
def ContainerWithMaxCapacity.add {T : Type} [Named T]
    (c : ContainerWithMaxCapacity T) (item : T) :
    Except Err Unit × ContainerWithMaxCapacity T :=
  if (c.elements.length : Int) = c.maxCapacity then
    (Except.error Err.CapacityExceeded, c)
  else
    (Except.ok (), { c with toContainer := c.toContainer.add item })

/-- Inherited lookup on a bounded container (main.cpp:159,179-183). -/
def ContainerWithMaxCapacity.findByName {T : Type}
    (c : ContainerWithMaxCapacity T) (name : String) : Option T :=
  c.toContainer.findByName name

/-- A sequence of `add` calls on a bounded container, stopping at the
first failure (the driver issues one command at a time, §6). -/
def ContainerWithMaxCapacity.addAll {T : Type} [Named T]
    (c : ContainerWithMaxCapacity T) (items : List T) :
    Except Err Unit × ContainerWithMaxCapacity T :=
  match items with
  | [] => (Except.ok (), c)
  | i :: rest =>
      match c.add i with
      | (Except.error e, c') => (Except.error e, c')
      | (Except.ok _, c') => c'.addAll rest

/-- `class Weapon` (main.cpp:93-111): a named item with `int damage`. -/
structure Weapon where
  name : String
  damage : Int
deriving DecidableEq, Repr

/-- `Weapon::getDamage` (main.cpp:107). -/
def Weapon.getDamage (w : Weapon) : Int := w.damage

/-- `PhysicalItem::getName` (main.cpp:84) as seen on `Weapon`. -/
def Weapon.getName (w : Weapon) : String := w.name

instance : Named Weapon := ⟨Weapon.getName⟩

/-- `class Potion` (main.cpp:113-128): a named item with `int healValue`. -/
structure Potion where
  name : String
  healValue : Int
deriving DecidableEq, Repr

/-- `Potion::getHealValue` (main.cpp:124). -/
def Potion.getHealValue (p : Potion) : Int := p.healValue

/-- `PhysicalItem::getName` (main.cpp:84) as seen on `Potion`. -/
def Potion.getName (p : Potion) : String := p.name

instance : Named Potion := ⟨Potion.getName⟩

/-- `class WeaponUser` (main.cpp:219-234): a character owning an
`Arsenal = ContainerWithMaxCapacity<Weapon>`. -/
structure WeaponUser where
  character : Character
  arsenal : ContainerWithMaxCapacity Weapon
deriving DecidableEq, Repr

/-- `WeaponUser::attack` (main.cpp:228-231):
`arsenal.find(weapon).getDamage()` then `target->takeDamage(damage)`.
When the name is absent, `find` returns the NULL sentinel and
`getDamage` dereferences it (undefined behavior) — modelled as `none`;
no `NotFound` failure is raised. -/
def WeaponUser.attack (u : WeaponUser) (target : Character)
    (weapon : String) : Option Character :=
  match u.arsenal.findByName weapon with
  | some w => some (target.takeDamage w.getDamage)
  | none => none

/-- `class PotionUser` (main.cpp:235-250): a character owning a
`MedicalBag = ContainerWithMaxCapacity<Potion>`. -/
structure PotionUser where
  character : Character
  medicalBag : ContainerWithMaxCapacity Potion
deriving DecidableEq, Repr

/-- `PotionUser::drink` (main.cpp:244-247):
`medicalBag.find(potion).getHealValue()` then `target->heal(healValue)`.
Absent name: NULL sentinel dereference, modelled as `none`. -/
def PotionUser.drink (u : PotionUser) (target : Character)
    (potion : String) : Option Character :=
  match u.medicalBag.findByName potion with
  | some p => some (target.heal p.getHealValue)
  | none => none

/-- `class Fighter` (main.cpp:268-272): WeaponUser + PotionUser over one
shared `Character` base (virtual inheritance). -/
structure Fighter where
  character : Character
  arsenal : ContainerWithMaxCapacity Weapon
  medicalBag : ContainerWithMaxCapacity Potion
deriving DecidableEq, Repr

/-- The `WeaponUser` sub-object of a `Fighter`. -/
def Fighter.toWeaponUser (f : Fighter) : WeaponUser :=
  ⟨f.character, f.arsenal⟩

/-- `attack` as invoked on a `Fighter` (inherited from `WeaponUser`). -/
def Fighter.attack (f : Fighter) (target : Character) (weapon : String) :
    Option Character :=
  f.toWeaponUser.attack target weapon

/-- Modelled from the spec: the two item states of §4.2 — the bodies of
`PhysicalItem::use`, `useCondition` and `afterUse` are declared
(main.cpp:57-78) but never defined in the source. -/
inductive ItemState where
  | Ready
  | Spent
deriving DecidableEq, Repr

/-- Modelled from the spec: the kind-specific payload of an item (§3) —
Weapon carries `damage`, Potion carries `healValue`, Spell carries an
allowed-target set (kept as the targets' names, §9 back-reference rule)
plus an effect magnitude. -/
inductive ItemKind where
  | weaponKind (damage : Int)
  | potionKind (healValue : Int)
  | spellKind (allowedTargets : List String) (damage : Int)
deriving DecidableEq, Repr

/-- `class PhysicalItem` (main.cpp:57-78): `isUsableOnce` and `name`
from the source fields; `state` and `kind` modelled from the spec
(§4.2) since the use-protocol bodies are absent from the source. -/
structure PhysicalItem where
  isUsableOnce : Bool
  name : String
  state : ItemState
  kind : ItemKind
deriving DecidableEq, Repr

/-- `PhysicalItem::getName` (main.cpp:84). -/
def PhysicalItem.getName (i : PhysicalItem) : String := i.name

instance : Named PhysicalItem := ⟨PhysicalItem.getName⟩

/-- Modelled from the spec: the kind-specific use-condition predicate
(§4.2a) — the body of `PhysicalItem::useCondition` (main.cpp:65) is
absent from the source. Weapons and potions are unconditional; a spell
requires the target to be in its allowed-target set. -/
def PhysicalItem.useCondition (i : PhysicalItem) (_user target : Character) :
    Bool :=
  match i.kind with
  | ItemKind.weaponKind _ => true
  | ItemKind.potionKind _ => true
  | ItemKind.spellKind allowed _ => allowed.contains target.getName

/-- Modelled from the spec: the kind-specific effect dispatch (§4.2b) —
the `useLogic` bodies (main.cpp:96,116,133) are absent from the source.
Weapon: `giveDamageTo(target, damage)`; Potion: `giveHealTo(target,
healValue)`; Spell: its effect magnitude applied to the target (the
Fireball scenario of §8 is damage). Returns the updated (user, target). -/
def PhysicalItem.useLogic (i : PhysicalItem) (user target : Character) :
    Character × Character :=
  match i.kind with
  | ItemKind.weaponKind d => (user, target.takeDamage d)
  | ItemKind.potionKind h => (user, target.heal h)
  | ItemKind.spellKind _ d => (user, target.takeDamage d)

/-- Modelled from the spec: the after-use hook (§4.2c) — the body of
`PhysicalItem::afterUse` (main.cpp:68) is absent from the source. A
use-once item becomes `Spent`; any other item is untouched. -/
def PhysicalItem.afterUse (i : PhysicalItem) : PhysicalItem :=
  if i.isUsableOnce then { i with state := ItemState.Spent } else i

deriving instance DecidableEq for Except

/-- Outcome of `use` together with the post-state of the item and of
both characters: a failed use mutates nothing. -/
structure UseResult where
  outcome : Except Err Unit
  item : PhysicalItem
  user : Character
  target : Character
deriving DecidableEq, Repr

/-- Modelled from the spec: `PhysicalItem::use` (declared main.cpp:75,
body absent) per §4.2 and §4.6 of the spec — a `Spent` item fails with
`ItemSpent`; a failed use-condition fails with `PreconditionNotMet` and
mutates neither character; otherwise the kind-specific effect runs and
the after-use hook fires. -/
def PhysicalItem.use (i : PhysicalItem) (user target : Character) :
    UseResult :=
  if i.state = ItemState.Spent then
    ⟨Except.error Err.ItemSpent, i, user, target⟩
  else if i.useCondition user target then
    let p := i.useLogic user target
    ⟨Except.ok (), i.afterUse, p.1, p.2⟩
  else
    ⟨Except.error Err.PreconditionNotMet, i, user, target⟩

/-- Modelled from the spec: the role verb of §4.5 applied to a bounded
container of items — look the name up (`NotFound` when absent), invoke
the item's `use`, and on a successful use of a use-once item remove it
from the owning container (§4.2c, effect-then-removal order of §9).
Returns the outcome with the post-state of container, user and target. -/
def useFromContainer (c : ContainerWithMaxCapacity PhysicalItem)
    (user target : Character) (itemName : String) :
    Except Err Unit × ContainerWithMaxCapacity PhysicalItem ×
      Character × Character :=
  match c.findByName itemName with
  | none => (Except.error Err.NotFound, c, user, target)
  | some i =>
      let r := i.use user target
      match r.outcome with
      | Except.error e => (Except.error e, c, user, target)
      | Except.ok _ =>
          if i.isUsableOnce then
            (Except.ok (),
              { c with toContainer := ⟨mapErase c.elements itemName⟩ },
              r.user, r.target)
          else
            (Except.ok (), c, r.user, r.target)

/-! ### Lemmas about the name-keyed map operations -/

theorem mapLookup_insert_self {T : Type} (l : List (String × T)) (k : String)
    (v : T) : mapLookup (mapInsert l k v) k = some v := by
  induction l with
  | nil => simp [mapInsert, mapLookup]
  | cons p rest ih =>
      obtain ⟨k', v'⟩ := p
      by_cases h : k = k'
      · simp [mapInsert, mapLookup, h]
      · simp [mapInsert, mapLookup, h, ih]

theorem mapLookup_insert_ne {T : Type} (l : List (String × T)) (k m : String)
    (v : T) (h : m ≠ k) : mapLookup (mapInsert l k v) m = mapLookup l m := by
  induction l with
  | nil => simp [mapInsert, mapLookup, h]
  | cons p rest ih =>
      obtain ⟨k', v'⟩ := p
      by_cases hk : k = k'
      · subst hk
        simp [mapInsert, mapLookup, h]
      · by_cases hm : m = k'
        · simp [mapInsert, mapLookup, hk, hm]
        · simp [mapInsert, mapLookup, hk, hm, ih]

theorem mapInsert_length_of_none {T : Type} (l : List (String × T))
    (k : String) (v : T) (h : mapLookup l k = none) :
    (mapInsert l k v).length = l.length + 1 := by
  induction l with
  | nil => simp [mapInsert]
  | cons p rest ih =>
      obtain ⟨k', v'⟩ := p
      by_cases hk : k = k'
      · simp [mapLookup, hk] at h
      · simp [mapLookup, hk] at h
        simp [mapInsert, hk, ih h]

theorem mapInsert_length_of_some {T : Type} (l : List (String × T))
    (k : String) (v : T) (h : (mapLookup l k).isSome) :
    (mapInsert l k v).length = l.length := by
  induction l with
  | nil => simp [mapLookup] at h
  | cons p rest ih =>
      obtain ⟨k', v'⟩ := p
      by_cases hk : k = k'
      · simp [mapInsert, hk]
      · simp [mapLookup, hk] at h
        simp [mapInsert, hk, ih h]

theorem mapLookup_erase_self {T : Type} (l : List (String × T)) (k : String) :
    mapLookup (mapErase l k) k = none := by
  induction l with
  | nil => simp [mapErase, mapLookup]
  | cons p rest ih =>
      obtain ⟨k', v'⟩ := p
      by_cases hk : k' = k
      · simpa [mapErase, List.filter, hk] using ih
      · have hk2 : ¬ k = k' := fun hc => hk hc.symm
        simpa [mapErase, List.filter, hk, mapLookup, hk2] using ih

theorem mapLookup_erase_ne {T : Type} (l : List (String × T)) (k m : String)
    (h : m ≠ k) : mapLookup (mapErase l k) m = mapLookup l m := by
  induction l with
  | nil => simp [mapErase, mapLookup]
  | cons p rest ih =>
      obtain ⟨k', v'⟩ := p
      by_cases hk : k' = k
      · subst hk
        have hm : ¬ m = k' := h
        simpa [mapErase, List.filter, mapLookup, hm] using ih
      · by_cases hm : m = k'
        · simp [mapErase, List.filter, hk, mapLookup, hm]
        · simpa [mapErase, List.filter, hk, mapLookup, hm] using ih

theorem addAll_fresh {T : Type} [Named T] (items : List T) :
    ∀ c : ContainerWithMaxCapacity T,
      (items.map Named.getName).Nodup →
      (∀ i ∈ items, c.findByName (Named.getName i) = none) →
      (c.elements.length : Int) + items.length ≤ c.maxCapacity →
      (c.addAll items).1 = Except.ok () ∧
      (c.addAll items).2.elements.length = c.elements.length + items.length ∧
      (c.addAll items).2.maxCapacity = c.maxCapacity := by
  induction items with
  | nil =>
      intro c _ _ _
      exact ⟨rfl, by simp [ContainerWithMaxCapacity.addAll], rfl⟩
  | cons i rest ih =>
      intro c hnodup hfresh hle
      have hlen : ((i :: rest).length : Int) = (rest.length : Int) + 1 := by
        push_cast [List.length_cons]
        ring
      have hne : (c.elements.length : Int) ≠ c.maxCapacity := by
        rw [hlen] at hle
        omega
      have hadd : c.add i =
          (Except.ok (), { c with toContainer := c.toContainer.add i }) := by
        simp [ContainerWithMaxCapacity.add, hne]
      have hsteps : c.addAll (i :: rest) =
          ({ c with toContainer := c.toContainer.add i }).addAll rest := by
        rw [ContainerWithMaxCapacity.addAll, hadd]
      have hfreshi : c.findByName (Named.getName i) = none :=
        hfresh i (List.mem_cons_self i rest)
      have hlen1 :
          ({ c with toContainer := c.toContainer.add i }).elements.length =
            c.elements.length + 1 :=
        mapInsert_length_of_none c.elements (Named.getName i) i hfreshi
      have hnotin : ∀ x ∈ rest, ¬ Named.getName x = Named.getName i := by
        simp [List.map_cons] at hnodup
        exact hnodup.1
      have hfresh2 : ∀ j ∈ rest,
          ({ c with toContainer := c.toContainer.add i }).findByName
            (Named.getName j) = none := by
        intro j hj
        have hne2 : Named.getName j ≠ Named.getName i := hnotin j hj
        show mapLookup (mapInsert c.elements (Named.getName i) i)
            (Named.getName j) = none
        rw [mapLookup_insert_ne c.elements (Named.getName i)
          (Named.getName j) i hne2]
        exact hfresh j (List.mem_cons_of_mem i hj)
      have hnodup2 : (rest.map Named.getName).Nodup := by
        simp [List.map_cons] at hnodup
        exact hnodup.2
      have hle2 :
          ((({ c with toContainer := c.toContainer.add i }).elements.length : Int)
            + rest.length) ≤
            ({ c with toContainer := c.toContainer.add i }).maxCapacity := by
        rw [hlen1] at *
        rw [hlen] at hle
        push_cast
        omega
      obtain ⟨h1, h2, h3⟩ :=
        ih { c with toContainer := c.toContainer.add i } hnodup2 hfresh2 hle2
      refine ⟨by rw [hsteps]; exact h1, ?_, by rw [hsteps]; exact h3⟩
      rw [hsteps, h2, hlen1, List.length_cons]
      omega

/-! ### Claims -/

/-- Claim C1: the claim says `find(name)` fails with `NotFound` on a miss
and never yields a null/sentinel object. The source instead returns the
NULL miss sentinel (`return NULL`, main.cpp:182), modelled as `none`: on
the empty container the lookup evaluates to the sentinel — no `NotFound`
failure is raised (the codomain of the embedded `find` carries no error
at all). The present-name half of the claim does hold: the stored item
is returned. -/
theorem C1_find_miss_yields_sentinel :
    (Container.mk [] : Container Weapon).findByName "Sword" = none ∧
    (Container.mk [("Sword", Weapon.mk "Sword" 10)]).findByName "Sword" =
      some (Weapon.mk "Sword" 10) :=
  ⟨rfl, rfl⟩

/-- Claim C2 counterexample: a bounded container with `maxCapacity = 2`
admits a third add after two successful adds, because the two first adds
carry the same name and the admission check looks only at the element
count. "After k successful adds the (k+1)th add fails" is false as
stated. -/
theorem C2_counterexample :
    ((((ContainerWithMaxCapacity.mk ⟨[]⟩ 2 : ContainerWithMaxCapacity
        Weapon).add (Weapon.mk "a" 1)).2.add (Weapon.mk "a" 2)).2.add
          (Weapon.mk "b" 3)).1 = Except.ok () ∧
    (((ContainerWithMaxCapacity.mk ⟨[]⟩ 2 : ContainerWithMaxCapacity
        Weapon).add (Weapon.mk "a" 1)).1 = Except.ok ()) ∧
    ((((ContainerWithMaxCapacity.mk ⟨[]⟩ 2 : ContainerWithMaxCapacity
        Weapon).add (Weapon.mk "a" 1)).2.add (Weapon.mk "a" 2)).1 =
      Except.ok ()) :=
  ⟨rfl, rfl, rfl⟩

/-- Claim C2 (amended: the k successful adds carry pairwise distinct
names): `add` on a bounded container with `maxCapacity = k` fails with
`CapacityExceeded` exactly when the element count equals `k`, a failed
add leaves the container unchanged, and starting from an empty container
`k` successful adds of distinctly named items are followed by a
`(k+1)`th add that fails with `CapacityExceeded`. -/
theorem C2_bounded_add {T : Type} [Named T]
    (c : ContainerWithMaxCapacity T) (item : T) (items : List T) (k : Nat) :
    ((c.elements.length : Int) = c.maxCapacity →
      c.add item = (Except.error Err.CapacityExceeded, c)) ∧
    ((c.elements.length : Int) ≠ c.maxCapacity →
      (c.add item).1 = Except.ok ()) ∧
    (c.elements = [] → c.maxCapacity = (k : Int) → items.length = k →
      (items.map Named.getName).Nodup →
      (c.addAll items).1 = Except.ok () ∧
      ((c.addAll items).2.add item).1 = Except.error Err.CapacityExceeded) := by
  refine ⟨?_, ?_, ?_⟩
  · intro h
    simp [ContainerWithMaxCapacity.add, h]
  · intro h
    simp [ContainerWithMaxCapacity.add, h]
  · intro hempty hcap hlen hnodup
    have hfresh : ∀ i ∈ items, c.findByName (Named.getName i) = none := by
      intro i _
      show mapLookup c.elements (Named.getName i) = none
      rw [hempty]
      rfl
    have hle : (c.elements.length : Int) + items.length ≤ c.maxCapacity := by
      rw [hempty, hcap, hlen]
      simp
    obtain ⟨h1, h2, h3⟩ := addAll_fresh items c hnodup hfresh hle
    refine ⟨h1, ?_⟩
    have hfull : (((c.addAll items).2.elements.length : Int)) =
        (c.addAll items).2.maxCapacity := by
      rw [h2, h3, hempty, hcap, hlen]
      simp
    simp [ContainerWithMaxCapacity.add, hfull]

/-- Claim C2 witness: capacity 1 — a full container rejects an add
unchanged; a non-full one admits it; one successful add of "a" then an
add of "b" fails with `CapacityExceeded`. -/
theorem C2_bounded_add_witness :
    ((ContainerWithMaxCapacity.mk ⟨[("a", Weapon.mk "a" 1)]⟩ 1).add
        (Weapon.mk "a" 9) =
      (Except.error Err.CapacityExceeded,
        ContainerWithMaxCapacity.mk ⟨[("a", Weapon.mk "a" 1)]⟩ 1)) ∧
    (((ContainerWithMaxCapacity.mk ⟨[]⟩ 1 : ContainerWithMaxCapacity
        Weapon).add (Weapon.mk "a" 1)).1 = Except.ok ()) ∧
    (((ContainerWithMaxCapacity.mk ⟨[]⟩ 1 : ContainerWithMaxCapacity
        Weapon).addAll [Weapon.mk "a" 1]).1 = Except.ok ()) ∧
    ((((ContainerWithMaxCapacity.mk ⟨[]⟩ 1 : ContainerWithMaxCapacity
        Weapon).addAll [Weapon.mk "a" 1]).2.add (Weapon.mk "b" 2)).1 =
      Except.error Err.CapacityExceeded) := by
  have hfull := C2_bounded_add
    (ContainerWithMaxCapacity.mk ⟨[("a", Weapon.mk "a" 1)]⟩ 1)
    (Weapon.mk "a" 9) ([] : List Weapon) 0
  have hrun := C2_bounded_add
    (ContainerWithMaxCapacity.mk ⟨[]⟩ 1 : ContainerWithMaxCapacity Weapon)
    (Weapon.mk "b" 2) [Weapon.mk "a" 1] 1
  have hone := C2_bounded_add
    (ContainerWithMaxCapacity.mk ⟨[]⟩ 1 : ContainerWithMaxCapacity Weapon)
    (Weapon.mk "a" 1) ([] : List Weapon) 0
  refine ⟨hfull.1 (by decide), hone.2.1 (by decide), ?_, ?_⟩
  · exact (hrun.2.2 rfl (by decide) rfl (by decide)).1
  · exact (hrun.2.2 rfl (by decide) rfl (by decide)).2

/-- Claim C3: the claim says each role verb fails with `NotFound` on an
absent name and otherwise invokes the item's `use(self, target)`. In the
source, `WeaponUser::attack` (main.cpp:228-231) and `PotionUser::drink`
(main.cpp:244-247) never call `use`: they read the payload off the
result of `find` and apply it directly, and on a miss they dereference
the NULL sentinel (undefined behavior, modelled `none`) instead of
failing with `NotFound`. The happy-path half of the claim does hold: the
Fighter scenario leaves the HP-20 target at HP 10. -/
theorem C3_attack_eval :
    (Fighter.mk (Character.mk 100 "Aria")
        (ContainerWithMaxCapacity.mk ⟨[("Sword", Weapon.mk "Sword" 10)]⟩ 1)
        (ContainerWithMaxCapacity.mk ⟨[]⟩ 1)).attack
      (Character.mk 20 "Dummy") "Sword" = some (Character.mk 10 "Dummy") ∧
    (Fighter.mk (Character.mk 100 "Aria")
        (ContainerWithMaxCapacity.mk ⟨[]⟩ 1)
        (ContainerWithMaxCapacity.mk ⟨[]⟩ 1)).attack
      (Character.mk 20 "Dummy") "Sword" = none ∧
    (PotionUser.mk (Character.mk 100 "Aria")
        (ContainerWithMaxCapacity.mk ⟨[]⟩ 1)).drink
      (Character.mk 20 "Dummy") "Elixir" = none :=
  ⟨rfl, rfl, rfl⟩

/-- Claim C4: a `use` whose kind-specific use-condition is not satisfied
fails with `PreconditionNotMet` and returns the item, the user and the
target exactly as they came in — neither character's health is mutated.
Settled against the spec-modelled `use` (its body is absent from the
source). -/
theorem C4_precondition_not_met (i : PhysicalItem) (user target : Character)
    (hready : i.state = ItemState.Ready)
    (hcond : i.useCondition user target = false) :
    i.use user target =
      ⟨Except.error Err.PreconditionNotMet, i, user, target⟩ := by
  have hns : ¬ i.state = ItemState.Spent := by
    rw [hready]
    intro hc
    cases hc
  simp [PhysicalItem.use, hns, hcond]

/-- Claim C4 witness: the Fireball spell with `allowedTargets = {Dummy}`
cast on a character that is not an allowed target fails with
`PreconditionNotMet`, both health values untouched. -/
theorem C4_precondition_not_met_witness :
    (PhysicalItem.mk false "Fireball" ItemState.Ready
        (ItemKind.spellKind ["Dummy"] 5)).use (Character.mk 100 "Aria")
      (Character.mk 50 "Bob") =
      ⟨Except.error Err.PreconditionNotMet,
        PhysicalItem.mk false "Fireball" ItemState.Ready
          (ItemKind.spellKind ["Dummy"] 5),
        Character.mk 100 "Aria", Character.mk 50 "Bob"⟩ :=
  C4_precondition_not_met _ _ _ rfl (by decide)

/-- Claim C5: a use-once item reaches the terminal `Spent` state after a
successful `use` and is removed from its owning container; `use` on a
`Spent` item fails with `ItemSpent` and changes nothing; an item with
`usableOnce = false` never changes state. Settled against the
spec-modelled use protocol (its body is absent from the source). -/
theorem C5_use_once_state_machine (i : PhysicalItem) (user target : Character)
    (c : ContainerWithMaxCapacity PhysicalItem) (n : String) :
    (i.state = ItemState.Spent →
      i.use user target = ⟨Except.error Err.ItemSpent, i, user, target⟩) ∧
    ((i.use user target).outcome = Except.ok () → i.isUsableOnce = true →
      (i.use user target).item.state = ItemState.Spent) ∧
    (i.isUsableOnce = false → (i.use user target).item.state = i.state) ∧
    (c.findByName n = some i → i.isUsableOnce = true →
      (useFromContainer c user target n).1 = Except.ok () →
      (useFromContainer c user target n).2.1.findByName n = none) := by
  refine ⟨?_, ?_, ?_, ?_⟩
  · intro hspent
    simp [PhysicalItem.use, hspent]
  · intro hok honce
    by_cases hspent : i.state = ItemState.Spent
    · simp [PhysicalItem.use, hspent] at hok
    · by_cases hcond : i.useCondition user target = true
      · simp [PhysicalItem.use, hspent, hcond, PhysicalItem.afterUse, honce]
      · simp [PhysicalItem.use, hspent, hcond] at hok
  · intro honce
    by_cases hspent : i.state = ItemState.Spent
    · simp [PhysicalItem.use, hspent]
    · by_cases hcond : i.useCondition user target = true
      · simp [PhysicalItem.use, hspent, hcond, PhysicalItem.afterUse, honce]
      · simp [PhysicalItem.use, hspent, hcond]
  · intro hfind honce hok
    by_cases hout : (i.use user target).outcome = Except.ok ()
    · have : (useFromContainer c user target n).2.1 =
          { c with toContainer := ⟨mapErase c.elements n⟩ } := by
        simp [useFromContainer, hfind, hout, honce]
      rw [this]
      exact mapLookup_erase_self c.elements n
    · obtain ⟨e, he⟩ : ∃ e, (i.use user target).outcome = Except.error e := by
        cases hcase : (i.use user target).outcome with
        | error e => exact ⟨e, rfl⟩
        | ok u => cases u; exact absurd hcase hout
      rw [useFromContainer, hfind] at hok
      simp [he] at hok

/-- Claim C5 witness: the use-once potion Elixir — one successful drink
spends it and erases it from its capacity-1 medical bag; a second use of
the spent item fails with `ItemSpent`; a non-use-once weapon stays
`Ready`. -/
theorem C5_use_once_state_machine_witness :
    ((PhysicalItem.mk true "Elixir" ItemState.Spent
        (ItemKind.potionKind 15)).use (Character.mk 100 "Aria")
      (Character.mk 20 "Dummy") =
      ⟨Except.error Err.ItemSpent,
        PhysicalItem.mk true "Elixir" ItemState.Spent (ItemKind.potionKind 15),
        Character.mk 100 "Aria", Character.mk 20 "Dummy"⟩) ∧
    (((PhysicalItem.mk true "Elixir" ItemState.Ready
        (ItemKind.potionKind 15)).use (Character.mk 100 "Aria")
      (Character.mk 20 "Dummy")).item.state = ItemState.Spent) ∧
    (((PhysicalItem.mk false "Sword" ItemState.Ready
        (ItemKind.weaponKind 10)).use (Character.mk 100 "Aria")
      (Character.mk 20 "Dummy")).item.state = ItemState.Ready) ∧
    ((useFromContainer
        (ContainerWithMaxCapacity.mk
          ⟨[("Elixir", PhysicalItem.mk true "Elixir" ItemState.Ready
              (ItemKind.potionKind 15))]⟩ 1)
        (Character.mk 100 "Aria") (Character.mk 20 "Dummy")
        "Elixir").2.1.findByName "Elixir" = none) := by
  have h1 := C5_use_once_state_machine
    (PhysicalItem.mk true "Elixir" ItemState.Spent (ItemKind.potionKind 15))
    (Character.mk 100 "Aria") (Character.mk 20 "Dummy")
    (ContainerWithMaxCapacity.mk ⟨[]⟩ 1) "Elixir"
  have h2 := C5_use_once_state_machine
    (PhysicalItem.mk true "Elixir" ItemState.Ready (ItemKind.potionKind 15))
    (Character.mk 100 "Aria") (Character.mk 20 "Dummy")
    (ContainerWithMaxCapacity.mk
      ⟨[("Elixir", PhysicalItem.mk true "Elixir" ItemState.Ready
          (ItemKind.potionKind 15))]⟩ 1) "Elixir"
  have h3 := C5_use_once_state_machine
    (PhysicalItem.mk false "Sword" ItemState.Ready (ItemKind.weaponKind 10))
    (Character.mk 100 "Aria") (Character.mk 20 "Dummy")
    (ContainerWithMaxCapacity.mk ⟨[]⟩ 1) "Sword"
  exact ⟨h1.1 rfl, h2.2.1 rfl rfl, h3.2.2.1 rfl,
    h2.2.2.2 rfl rfl (by decide)⟩

/-- Claim C6: the two `remove` overloads agree (removing an item is
removing its name); a remove of an absent name — which covers the empty
container, where every lookup misses — fails with `NotFound` and leaves
the container unchanged; a successful remove erases exactly the named
entry and no other. -/
theorem C6_remove_semantics {T : Type} [Named T] (c : Container T)
    (item : T) (n m : String) :
    (c.removeItem item = c.removeByName (Named.getName item)) ∧
    (c.findByName n = none →
      c.removeByName n = (Except.error Err.NotFound, c)) ∧
    (∀ i, c.findByName n = some i →
      (c.removeByName n).1 = Except.ok () ∧
      (c.removeByName n).2.findByName n = none ∧
      (m ≠ n → (c.removeByName n).2.findByName m = c.findByName m)) := by
  refine ⟨?_, ?_, ?_⟩
  · have hcond : (c.elements.length = 0 ∨ c.findItem item = false) ↔
        (c.elements.length = 0 ∨
          (c.findByName (Named.getName item)).isNone = true) := by
      cases hfind : c.findByName (Named.getName item) <;>
        simp [Container.findItem, hfind]
    simp only [Container.removeItem, Container.removeByName]
    exact if_congr hcond rfl rfl
  · intro hnone
    simp [Container.removeByName, hnone]
  · intro i hfind
    have hnemp : ¬ c.elements.length = 0 := by
      intro hz
      have hnil : c.elements = [] := List.length_eq_zero.mp hz
      rw [Container.findByName, hnil] at hfind
      simp [mapLookup] at hfind
    have hfind2 : mapLookup c.elements n = some i := hfind
    have hif : c.removeByName n =
        (Except.ok (), ⟨mapErase c.elements n⟩) := by
      simp [Container.removeByName, hnemp, hfind, hfind2]
    refine ⟨by rw [hif], ?_, ?_⟩
    · rw [hif]
      exact mapLookup_erase_self c.elements n
    · intro hm
      rw [hif]
      exact mapLookup_erase_ne c.elements n m hm

/-- Claim C6 witness: in the container holding only "a", removing "b"
fails with `NotFound` unchanged (and both overloads agree on it), while
removing "a" succeeds, erases "a" and leaves "b" lookups as they were. -/
theorem C6_remove_semantics_witness :
    ((Container.mk [("a", Weapon.mk "a" 1)]).removeItem (Weapon.mk "b" 2) =
      (Container.mk [("a", Weapon.mk "a" 1)]).removeByName "b") ∧
    ((Container.mk [("a", Weapon.mk "a" 1)]).removeByName "b" =
      (Except.error Err.NotFound, Container.mk [("a", Weapon.mk "a" 1)])) ∧
    (((Container.mk [("a", Weapon.mk "a" 1)]).removeByName "a").1 =
      Except.ok ()) ∧
    (((Container.mk [("a", Weapon.mk "a" 1)]).removeByName "a").2.findByName
      "a" = none) ∧
    (((Container.mk [("a", Weapon.mk "a" 1)]).removeByName "a").2.findByName
      "b" = (Container.mk [("a", Weapon.mk "a" 1)]).findByName "b") := by
  have hb := C6_remove_semantics (Container.mk [("a", Weapon.mk "a" 1)])
    (Weapon.mk "b" 2) "b" "a"
  have ha := C6_remove_semantics (Container.mk [("a", Weapon.mk "a" 1)])
    (Weapon.mk "b" 2) "a" "b"
  have hsucc := ha.2.2 (Weapon.mk "a" 1) rfl
  exact ⟨hb.1, hb.2.1 rfl, hsucc.1, hsucc.2.1, hsucc.2.2 (by decide)⟩

/-- Claim C7: after `add(i)`, `find(i.getName())` returns exactly `i`;
an add whose key already exists overwrites the entry in place — other
keys keep their bindings and the element count does not grow. -/
theorem C7_add_then_find {T : Type} [Named T] (c : Container T) (i : T)
    (m : String) :
    ((c.add i).findByName (Named.getName i) = some i) ∧
    (m ≠ Named.getName i → (c.add i).findByName m = c.findByName m) ∧
    ((c.findByName (Named.getName i)).isSome = true →
      (c.add i).elements.length = c.elements.length) := by
  refine ⟨?_, ?_, ?_⟩
  · exact mapLookup_insert_self c.elements (Named.getName i) i
  · intro h
    exact mapLookup_insert_ne c.elements (Named.getName i) m i h
  · intro h
    exact mapInsert_length_of_some c.elements (Named.getName i) i h

/-- Claim C7 witness: adding a second weapon named "a" to a container
already holding an "a" makes `find "a"` return the new item, leaves
"b" lookups untouched and keeps the element count at 1. -/
theorem C7_add_then_find_witness :
    (((Container.mk [("a", Weapon.mk "a" 1)]).add (Weapon.mk "a" 2)).findByName
      "a" = some (Weapon.mk "a" 2)) ∧
    (((Container.mk [("a", Weapon.mk "a" 1)]).add (Weapon.mk "a" 2)).findByName
      "b" = (Container.mk [("a", Weapon.mk "a" 1)]).findByName "b") ∧
    (((Container.mk [("a", Weapon.mk "a" 1)]).add
      (Weapon.mk "a" 2)).elements.length =
      (Container.mk [("a", Weapon.mk "a" 1)]).elements.length) := by
  have h := C7_add_then_find (Container.mk [("a", Weapon.mk "a" 1)])
    (Weapon.mk "a" 2) "b"
  exact ⟨h.1, h.2.1 (by decide), h.2.2 (by decide)⟩

/-- Claim C8: `takeDamage(d)` then `heal(d)` restores the character
exactly — in particular `getHP` returns its prior value — for every
integer `d`; the two operations are inverse. -/
theorem C8_take_damage_heal_inverse (c : Character) (d : Int) :
    (c.takeDamage d).heal d = c ∧
    ((c.takeDamage d).heal d).getHP = c.getHP := by
  have h : (c.takeDamage d).heal d = c := by
    cases c with
    | mk hp nm => simp [Character.takeDamage, Character.heal]
  exact ⟨h, by rw [h]⟩

/-- Claim C9: the bounded admission check compares only the element
count with `maxCapacity`; a full container rejects every add with
`CapacityExceeded`, unchanged — also when the incoming item's name is
already a key and the add would merely overwrite without growing. -/
theorem C9_admission_depends_on_count (T : Type) [Named T]
    (c : ContainerWithMaxCapacity T) (item : T)
    (h : (c.elements.length : Int) = c.maxCapacity) :
    c.add item = (Except.error Err.CapacityExceeded, c) := by
  simp [ContainerWithMaxCapacity.add, h]

/-- Claim C9 witness: a capacity-1 container already holding "Sword"
rejects another weapon named "Sword" — an overwrite that would not grow
the container — with `CapacityExceeded`, unchanged. -/
theorem C9_admission_depends_on_count_witness :
    (ContainerWithMaxCapacity.mk ⟨[("Sword", Weapon.mk "Sword" 10)]⟩ 1).add
      (Weapon.mk "Sword" 99) =
      (Except.error Err.CapacityExceeded,
        ContainerWithMaxCapacity.mk ⟨[("Sword", Weapon.mk "Sword" 10)]⟩ 1) :=
  C9_admission_depends_on_count Weapon
    (ContainerWithMaxCapacity.mk ⟨[("Sword", Weapon.mk "Sword" 10)]⟩ 1)
    (Weapon.mk "Sword" 99) (by decide)

/-- Claim C10: `takeDamage` subtracts exactly `d` and `heal` adds
exactly `d` with no clamping, rejection or death handling — the name is
untouched and health can be driven below any bound. -/
theorem C10_no_clamping (c : Character) (d : Int) :
    ((c.takeDamage d).getHP = c.getHP - d) ∧
    ((c.heal d).getHP = c.getHP + d) ∧
    ((c.takeDamage d).getName = c.getName) ∧
    ((c.heal d).getName = c.getName) ∧
    (∀ n : Int, ∃ e : Int, (c.takeDamage e).getHP < n) := by
  refine ⟨rfl, rfl, rfl, rfl, fun n => ⟨c.getHP - n + 1, ?_⟩⟩
  simp [Character.takeDamage, Character.getHP]
  omega

end SSAD
